import Mathlib

/-!
Verification development for the NF-e (Brazilian electronic invoice)
extraction/validation pipeline of this repository.

The Python source (`nf_processor.py`, `security_utils.py`) is shallowly
embedded: Python strings become `List Char`, bytes become `List Nat`,
Python floats become exact rationals (`Rat`), `None`-able values become
`Option`, and library calls that cannot be modelled from first principles
(the `bleach` HTML sanitizer, `datetime` parsing, pandas CSV parsing)
become explicit function parameters ("oracles") of the embedded
functions, so that each theorem quantifies over every possible behaviour
of those collaborators.
-/

/-- Python strings are modelled as lists of characters. -/
abbrev Str := List Char

/-- Raw file bytes. -/
abbrev Bytes := List Nat

/-- `filename.lower()` : character-wise lowercasing. -/
def toLowerStr (s : Str) : Str := s.map Char.toLower

/-- `re.sub(r'[^\d]', '', s)` : keep only ASCII decimal digits. -/
def stripNonDigits (s : Str) : Str := s.filter Char.isDigit

/-- `int(c)` for a single digit character. -/
def digitVal (c : Char) : Nat := c.toNat - 48

/-- Numeric value of a digit string (most significant digit first). -/
def natOfDigits (s : Str) : Nat := s.foldl (fun a c => a * 10 + digitVal c) 0

/-- `str.strip()` : drop whitespace from both ends. -/
def stripWs (s : Str) : Str :=
  ((s.dropWhile Char.isWhitespace).reverse.dropWhile Char.isWhitespace).reverse

/-- The character class kept by `re.sub(r'[^\d.,\-]', '', s)` /
`re.sub(r'[^\d,.-]', '', s)` (both regexes keep the same set). -/
def keepNumChar (c : Char) : Bool := c.isDigit || c == '.' || c == ',' || c == '-'

/-- `s.replace(',', '.')` applied character-wise. -/
def commaToDot (c : Char) : Char := if c = ',' then '.' else c

/-- `s.replace('NFe', '')` : remove every occurrence of the literal
marker `NFe`, scanning left to right. -/
def replaceNFe : Str → Str
  | 'N' :: 'F' :: 'e' :: rest => replaceNFe rest
  | c :: rest => c :: replaceNFe rest
  | [] => []

/-! ## CNPJ (issuer tax-id) validation, from `ValidadorNF` in `nf_processor.py` -/

/-- The weight sequence produced by the loop in `_calcular_digito_cnpj`:
start at `start`, decrement, reset to 9 when the decrement falls below 2. -/
def cnpjWeights (start : Nat) : Nat → List Nat
  | 0 => []
  | n + 1 => start :: cnpjWeights (if start - 1 < 2 then 9 else start - 1) n

/-- `sum(int(cnpj[i]) * peso ...)` : dot product of digits and weights. -/
def dotProd (ds ws : List Nat) : Nat := (List.zipWith (· * ·) ds ws).sum

/-- Embedding of `ValidadorNF._calcular_digito_cnpj`.  The Python code is
only called on strings of exactly 14 digit characters (enforced by
`_validar_cnpj`); out-of-range indexing, which would raise `IndexError`
and be converted to `False` by the `except` clause, is modelled by a
default digit value 99 that can never equal a computed check digit. -/
def calcular_digito_cnpj (cnpj : Str) : Bool :=
  let ds := cnpj.map digitVal
  let soma1 := dotProd (ds.take 12) (cnpjWeights 5 12)
  let resto1 := soma1 % 11
  let digito1 := if resto1 < 2 then 0 else 11 - resto1
  if ds.getD 12 99 ≠ digito1 then false
  else
    let soma2 := dotProd (ds.take 13) (cnpjWeights 6 13)
    let resto2 := soma2 % 11
    let digito2 := if resto2 < 2 then 0 else 11 - resto2
    decide (ds.getD 13 99 = digito2)

/-- Embedding of `ValidadorNF._validar_cnpj` : strip formatting, require
14 digits, reject 14 identical digits, then verify both check digits. -/
def validar_cnpj (cnpj : Str) : Bool :=
  if cnpj = [] then false
  else
    let cnpj_numeros := stripNonDigits cnpj
    if cnpj_numeros.length ≠ 14 then false
    else if cnpj_numeros = List.replicate 14 (cnpj_numeros.headD ' ') then false
    else calcular_digito_cnpj cnpj_numeros

/-! Spec-side formulation of the check-digit algorithm (for the refinement
claim C1): the spec's words name the explicit weight cycles 5→2 then 9,
and 6→2 then 9, and the rule remainder < 2 ⇒ 0 else 11 − remainder. -/

/-- Weights for the first check digit, written as in the spec. -/
def specPesos1 : List Nat := [5, 4, 3, 2, 9, 8, 7, 6, 5, 4, 3, 2]

/-- Weights for the second check digit, written as in the spec. -/
def specPesos2 : List Nat := [6, 5, 4, 3, 2, 9, 8, 7, 6, 5, 4, 3, 2]

/-- The spec's check-digit rule: remainder < 2 gives 0, else 11 − remainder. -/
def specDigito (soma : Nat) : Nat := if soma % 11 < 2 then 0 else 11 - soma % 11

/-- A 14-digit tax-id, as a list of digit values, that is valid per the
spec's description: digits in range, not all identical, and both check
digits satisfy the weighted-modulo-11 algorithm. -/
def SpecCnpjValido (ds : List Nat) : Prop :=
  ds.length = 14 ∧ (∀ d ∈ ds, d < 10) ∧
  ds ≠ List.replicate 14 (ds.headD 0) ∧
  ds.getD 12 0 = specDigito (dotProd (ds.take 12) specPesos1) ∧
  ds.getD 13 0 = specDigito (dotProd (ds.take 13) specPesos2)

instance (ds : List Nat) : Decidable (SpecCnpjValido ds) := by
  unfold SpecCnpjValido; infer_instance

/-- Render a digit value as its ASCII character. -/
def digitChar (d : Nat) : Char := Char.ofNat (d + 48)

/-- Render a digit list as the 14-character tax-id string handed to
`validar_cnpj`. -/
def renderDigits (ds : List Nat) : Str := ds.map digitChar

/-- Number of positions at which two equal-length strings differ. -/
def numDiffer (a b : Str) : Nat :=
  (List.zipWith (fun x y => if x = y then 0 else 1) a b).sum

/-! ## Numeric value model, from `DataSanitizer` and the CSV item helper -/

/-- Model of Python `float(s)` applied to a string: optional surrounding
whitespace, an optional sign, then digits with at most one decimal point
and at least one digit.  The result is an exact rational (IEEE rounding
is idealised away); scientific notation, `inf`/`nan` and digit-group
underscores, which cannot survive the numeric cleaning steps of this
code base, are not modelled and simply fail to parse. -/
def parseUnsignedFloat (s : Str) : Option Rat :=
  let intPart := s.takeWhile Char.isDigit
  let rest := s.dropWhile Char.isDigit
  match rest with
  | [] => if intPart = [] then none else some ((natOfDigits intPart : Nat) : Rat)
  | '.' :: frac =>
    if frac.all Char.isDigit ∧ (intPart ≠ [] ∨ frac ≠ []) then
      some ((natOfDigits intPart : Rat) + (natOfDigits frac : Rat) / (10 ^ frac.length))
    else none
  | _ => none

/-- `float(s)` with the optional sign handling. -/
def parseFloatStr (s : Str) : Option Rat :=
  match stripWs s with
  | '-' :: rest => (parseUnsignedFloat rest).map (fun q => -q)
  | '+' :: rest => parseUnsignedFloat rest
  | t => parseUnsignedFloat t

/-- Dynamically typed Python values reaching the numeric sanitizer and
the `valor_total` field: a float/int, or a string. -/
inductive PyVal where
  | num (q : Rat)
  | str (s : Str)
deriving Repr, DecidableEq

/-- Embedding of `DataSanitizer.sanitize_numeric_value`.  `None` input is
`Option.none`; on a string it keeps only `[\d.,\-]`, replaces every `,`
by `.`, and calls `float`, returning `0.0` when that raises. -/
def sanitize_numeric_value : Option PyVal → Rat
  | none => 0
  | some (.num q) => q
  | some (.str s) =>
    let value_clean := (s.filter keepNumChar).map commaToDot
    (parseFloatStr value_clean).getD 0

/-- Embedding of the row-local helper `converter_valor_numerico` inside
`Dashboard._processar_csv_itens`.  A pandas cell is modelled as
`Option Str` (`none` = missing/NaN).  It keeps only `[\d,.-]`; when both
`,` and `.` survive, `.` is removed (thousands separator) and `,` becomes
the decimal point; when only `,` survives it becomes the decimal point. -/
def converter_valor_numerico : Option Str → Rat
  | none => 0
  | some s0 =>
    if s0 = [] then 0
    else
      let valor_str := stripWs s0
      if valor_str = [] then 0
      else
        let valor_limpo := valor_str.filter keepNumChar
        let valor_limpo2 :=
          if valor_limpo.contains ',' && valor_limpo.contains '.' then
            (valor_limpo.filter (fun c => !(c == '.'))).map commaToDot
          else if valor_limpo.contains ',' then valor_limpo.map commaToDot
          else valor_limpo
        (parseFloatStr valor_limpo2).getD 0

/-! ## Data model: `NotaFiscal` dataclass and item dictionaries -/

/-- Processing limits from `SecurityConfig`. -/
def MAX_XML_SIZE : Nat := 10 * 1024 * 1024

/-- `SecurityConfig.MAX_ITEMS_PER_NF`. -/
def MAX_ITEMS_PER_NF : Nat := 1000

/-- A line-item dictionary as built by the extractors (keys `codigo`,
`descricao`, `ncm`, `quantidade`, `valor_unitario`, `valor_total`). -/
structure Item where
  codigo : Str
  descricao : Str
  ncm : Str
  quantidade : Rat
  valor_unitario : Rat
  valor_total : Rat
deriving Repr, DecidableEq

/-- The `NotaFiscal` dataclass.  Dates are modelled as integers (days
since an arbitrary epoch); `valor_total` keeps its dynamic Python type
(`float` or `str`) as `PyVal`; fields the XML path can set to `None`
are `Option`-typed.  `processado_em` is filled from the clock oracle. -/
structure NotaFiscal where
  numero : Str
  serie : Str
  data_emissao : Option Int
  cnpj_emitente : Option Str
  nome_emitente : Str
  valor_total : PyVal
  chave_acesso : Option Str
  natureza_operacao : Str
  situacao : Str := "Pendente".toList
  data_vencimento : Option Int := none
  cnpj_destinatario : Option Str := none
  nome_destinatario : Option Str := none
  valor_icms : Rat := 0
  valor_ipi : Rat := 0
  valor_pis : Rat := 0
  valor_cofins : Rat := 0
  itens : List Item := []
  xml_original : Option Str := none
  processado_em : Int := 0
deriving Repr, DecidableEq

/-! ## Validator, from `ValidadorNF` -/

/-- The per-field test of `_validar_campos_obrigatorios`:
`not valor or (isinstance(valor, str) and not valor.strip())` fails the
field; `none` models a `None` field value. -/
def campoPreenchido : Option Str → Bool
  | none => false
  | some s => !s.isEmpty && !(stripWs s).isEmpty

/-- Embedding of `ValidadorNF._validar_campos_obrigatorios`. -/
def validar_campos_obrigatorios (nota : NotaFiscal) : Bool :=
  campoPreenchido (some nota.numero) &&
  campoPreenchido (some nota.serie) &&
  campoPreenchido nota.cnpj_emitente &&
  campoPreenchido nota.chave_acesso &&
  campoPreenchido (some nota.nome_emitente) &&
  campoPreenchido (some nota.natureza_operacao)

/-- `_validar_cnpj` applied to the `Option`-typed field (its leading
`if not cnpj` guard also absorbs `None`). -/
def validar_cnpj_campo : Option Str → Bool
  | none => false
  | some s => validar_cnpj s

/-- Embedding of `ValidadorNF._validar_chave_acesso` : strip the `NFe`
marker and non-digits, require 44 digits, reject 44 zeros. -/
def validar_chave_acesso : Option Str → Bool
  | none => false
  | some chave =>
    if chave = [] then false
    else
      let chave_limpa := stripNonDigits (replaceNFe chave)
      if chave_limpa.length ≠ 44 then false
      else decide (chave_limpa ≠ List.replicate 44 '0')

/-- The bound and sign checks of `_validar_valores`, run after the
string-to-float coercion: total must be a number in (0, 999999999.99],
and each tax value must not be negative. -/
def validar_valores_checks (nota : NotaFiscal) : Bool :=
  match nota.valor_total with
  | .num v =>
    if v ≤ 0 then false
    else if v > (999999999.99 : Rat) then false
    else
      decide (0 ≤ nota.valor_icms) && decide (0 ≤ nota.valor_ipi) &&
      decide (0 ≤ nota.valor_pis) && decide (0 ≤ nota.valor_cofins)
  | .str _ => false

/-- Embedding of `ValidadorNF._validar_valores`.  Returns the boolean
verdict together with the (possibly mutated) invoice: a string-typed
`valor_total` is coerced in place via `float(s.replace(',', '.'))`
before the checks; when that conversion raises `ValueError`, the
`except` clause returns `False` and the assignment never happens. -/
def validar_valores (nota : NotaFiscal) : Bool × NotaFiscal :=
  match nota.valor_total with
  | .str s =>
    match parseFloatStr (s.map commaToDot) with
    | none => (false, nota)
    | some q =>
      let nota2 := { nota with valor_total := .num q }
      (validar_valores_checks nota2, nota2)
  | .num _ => (validar_valores_checks nota, nota)

/-- Embedding of `ValidadorNF._validar_data` : issue date within
`[now − 3650 days, now + 1 day]`; a missing date fails. -/
def validar_data (now : Int) : Option Int → Bool
  | none => false
  | some d => !decide (d < now - 3650) && !decide (d > now + 1)

/-- Embedding of `ValidadorNF._validar_itens` : at most 1000 items, each
with truthy (non-empty) description and code and non-negative numeric
fields.  (Items in this model are always well-typed dictionaries, so the
`isinstance` and `float()` failure branches cannot fire.) -/
def validar_itens (itens : List Item) : Bool :=
  if itens = [] then true
  else if itens.length > MAX_ITEMS_PER_NF then false
  else itens.all (fun item =>
    (!item.descricao.isEmpty && !item.codigo.isEmpty) &&
    !decide (item.quantidade < 0) && !decide (item.valor_unitario < 0) &&
    !decide (item.valor_total < 0))

/-- Embedding of `ValidadorNF.validar_nota_fiscal` : the checks run in
source order, short-circuiting on the first failure; the returned
invoice carries the in-place `valor_total` coercion made by
`_validar_valores`.  `now` models `datetime.now()`.  (A Python dataclass
instance is always truthy, so the leading `if not nota` guard only
concerns a `None` argument, which this embedding excludes by typing.) -/
def validar_nota_fiscal (now : Int) (nota : NotaFiscal) : Bool × NotaFiscal :=
  if !validar_campos_obrigatorios nota then (false, nota)
  else if !validar_cnpj_campo nota.cnpj_emitente then (false, nota)
  else if !validar_chave_acesso nota.chave_acesso then (false, nota)
  else
    let res := validar_valores nota
    if !res.1 then (false, res.2)
    else if !validar_data now res.2.data_emissao then (false, res.2)
    else if !res.2.itens.isEmpty && !validar_itens res.2.itens then (false, res.2)
    else (true, res.2)

/-! ## XML model, from `XMLSecurityValidator` and `XMLExtractor` -/

/-- ElementTree elements: tag (carrying a `\x7bnamespace\x7d` prefix when
the document is namespaced), attributes, text content, child elements. -/
inductive Xml where
  | elem (tag : Str) (attrs : List (Str × Str)) (text : Str) (children : List Xml)

/-- Tag of an element. -/
def Xml.tag : Xml → Str
  | .elem t _ _ _ => t

/-- Attributes of an element. -/
def Xml.attrs : Xml → List (Str × Str)
  | .elem _ a _ _ => a

/-- Text content of an element (`""` models Python `None` text). -/
def Xml.text : Xml → Str
  | .elem _ _ tx _ => tx

/-- Child elements. -/
def Xml.children : Xml → List Xml
  | .elem _ _ _ ch => ch

mutual

/-- Search one subtree (self, then its children) for the first element
with the given tag, in document (depth-first, pre-) order. -/
def findDescXml (tag : Str) : Xml → Option Xml
  | Xml.elem t a tx ch =>
    if t = tag then some (Xml.elem t a tx ch) else findDescList tag ch

/-- `element.find('.//tag')` over a list of sibling subtrees: first
match in document order. -/
def findDescList (tag : Str) : List Xml → Option Xml
  | [] => none
  | x :: rest =>
    match findDescXml tag x with
    | some e => some e
    | none => findDescList tag rest

end

mutual

/-- All matches in one subtree (self included), document order. -/
def findAllDescXml (tag : Str) : Xml → List Xml
  | Xml.elem t a tx ch =>
    (if t = tag then [Xml.elem t a tx ch] else []) ++ findAllDescList tag ch

/-- `element.findall('.//tag')` over a list of sibling subtrees,
document order. -/
def findAllDescList (tag : Str) : List Xml → List Xml
  | [] => []
  | x :: rest => findAllDescXml tag x ++ findAllDescList tag rest

end

/-- `x.find('.//tag')` : first strict descendant with the given tag. -/
def Xml.findDesc (x : Xml) (tag : Str) : Option Xml := findDescList tag x.children

/-- `x.findall('.//tag')` : all strict descendants with the given tag. -/
def Xml.findAllDesc (x : Xml) (tag : Str) : List Xml := findAllDescList tag x.children

/-- `x.get(key, '')` attribute lookup (first binding wins). -/
def Xml.attr (x : Xml) (key : Str) : Option Str :=
  (x.attrs.find? (fun p => p.1 == key)).map Prod.snd

/-- A tag qualified with the NF-e namespace, as ElementTree stores it:
`\x7bhttp://www.portalfiscal.inf.br/nfe\x7dtag`. -/
def nfeTag (t : String) : Str :=
  "\x7bhttp://www.portalfiscal.inf.br/nfe\x7d".toList ++ t.toList

/-- Tag used by the extractor's lookups: namespaced when the `infNFe`
lookup succeeded through the namespace, plain otherwise. -/
def tagNS (useNs : Bool) (t : String) : Str := if useNs then nfeTag t else t.toList

/-- `root.tag.split('\x7d')[-1] if '\x7d' in root.tag else root.tag` :
the namespace-stripped local tag name. -/
def localName (tag : Str) : Str :=
  if tag.contains '\x7d' then (tag.reverse.takeWhile (fun c => !(c == '\x7d'))).reverse
  else tag

/-- The two recognised NF-e document roots (`valid_tags`). -/
def valid_root_tags : List Str := ["nfeProc".toList, "NFe".toList]

/-- Embedding of `XMLSecurityValidator._validate_xml_structure` : the
local root tag must be allow-listed, and an `infNFe` descendant must be
found — first through the NF-e namespace, then unprefixed. -/
def validate_xml_structure (root : Xml) : Bool :=
  if !(valid_root_tags.contains (localName root.tag)) then false
  else
    match root.findDesc (nfeTag "infNFe") with
    | some _ => true
    | none => (root.findDesc "infNFe".toList).isSome

/-- Embedding of `XMLSecurityValidator.validate_xml_size`. -/
def validate_xml_size (xml_content : Bytes) : Bool :=
  !decide (xml_content.length > MAX_XML_SIZE)

/-- Embedding of `XMLSecurityValidator.parse_xml_safely`, parameterised
by the strict decoder (`bytes.decode('utf-8', errors='strict')`; `none`
models `UnicodeDecodeError`) and the hardened `defusedxml` parser
(`none` models `ParseError`).  Theorems quantify over these parameters,
so a rejection proved for every decoder/parser is a rejection reached
before either collaborator's answer can matter. -/
def parse_xml_safely (decode : Bytes → Option Str) (parseXml : Str → Option Xml)
    (xml_content : Bytes) : Option Xml :=
  if !validate_xml_size xml_content then none
  else
    match decode xml_content with
    | none => none
    | some xml_string =>
      match parseXml xml_string with
      | none => none
      | some root => if validate_xml_structure root then some root else none

/-- Library collaborators of the extractors that cannot be modelled from
first principles, passed as oracles: `bleach`-based string sanitisation
(`DataSanitizer.sanitize_string`), `datetime.fromisoformat`, the PDF
path's `strptime('%d/%m/%Y')`, and the clock `datetime.now()`. -/
structure Oracles where
  sanitize_string : Str → Str
  parseIsoDate : Str → Option Int
  strptimeBR : Str → Option Int
  now : Int

/-- Embedding of `XMLExtractor._parse_date_safe` : sanitize, take the
part before `T`, parse ISO; any failure yields `None`. -/
def parse_date_safe (O : Oracles) (date_str : Str) : Option Int :=
  if date_str = [] then none
  else
    let date_clean := O.sanitize_string date_str
    O.parseIsoDate (date_clean.takeWhile (fun c => !(c == 'T')))

/-- Embedding of `DataSanitizer.sanitize_cnpj` : strip non-digits,
require 14 digits, return the canonical `NN.NNN.NNN/NNNN-NN` form. -/
def sanitize_cnpj (cnpj : Str) : Option Str :=
  if cnpj = [] then none
  else
    let cnpj_clean := stripNonDigits cnpj
    if cnpj_clean.length ≠ 14 then none
    else
      some (cnpj_clean.take 2 ++ '.' :: (cnpj_clean.drop 2).take 3 ++
        '.' :: (cnpj_clean.drop 5).take 3 ++ '/' :: (cnpj_clean.drop 8).take 4 ++
        '-' :: cnpj_clean.drop 12)

/-- Embedding of `DataSanitizer.sanitize_chave_acesso` : drop the `NFe`
marker and non-digits; succeed only on exactly 44 digits. -/
def sanitize_chave_acesso (chave : Str) : Option Str :=
  if chave = [] then none
  else
    let chave_clean := stripNonDigits (replaceNFe chave)
    if chave_clean.length ≠ 44 then none
    else some chave_clean

/-- `sanitize_chave_acesso` lifted to an already-`Option`al value, as in
the Python call sites where the argument may be `None` (the function's
`if not chave` guard absorbs `None`). -/
def osanitize_chave_acesso : Option Str → Option Str
  | none => none
  | some s => sanitize_chave_acesso s

/-- Embedding of `XMLExtractor._get_text_safe` :
`node.text if node is not None and node.text else ""`. -/
def get_text_safe (element : Xml) (useNs : Bool) (t : String) : Str :=
  match element.findDesc (tagNS useNs t) with
  | some node => node.text
  | none => []

/-- Embedding of `XMLExtractor._extrair_itens_seguros` : all `det`
descendants in document order, truncated to `MAX_ITEMS_PER_NF`; a `det`
without a `prod` child contributes nothing. -/
def extrair_itens_seguros (O : Oracles) (useNs : Bool) (inf_nfe : Xml) : List Item :=
  let det_elements := (inf_nfe.findAllDesc (tagNS useNs "det")).take MAX_ITEMS_PER_NF
  det_elements.filterMap (fun det =>
    match det.findDesc (tagNS useNs "prod") with
    | none => none
    | some prod => some {
        codigo := O.sanitize_string (get_text_safe prod useNs "cProd")
        descricao := O.sanitize_string (get_text_safe prod useNs "xProd")
        ncm := O.sanitize_string (get_text_safe prod useNs "NCM")
        quantidade := sanitize_numeric_value (some (.str (get_text_safe prod useNs "qCom")))
        valor_unitario := sanitize_numeric_value (some (.str (get_text_safe prod useNs "vUnCom")))
        valor_total := sanitize_numeric_value (some (.str (get_text_safe prod useNs "vProd"))) })

/-- The `infNFe` lookup at the top of `_extrair_dados_seguros` :
namespaced first, then unprefixed; the boolean records which namespace
dictionary the subsequent lookups use. -/
def infNFeLookup (root : Xml) : Option (Xml × Bool) :=
  match root.findDesc (nfeTag "infNFe") with
  | some e => some (e, true)
  | none =>
    match root.findDesc "infNFe".toList with
    | some e => some (e, false)
    | none => none

/-- ElementTree truthiness of a possibly-missing element: a Python
`Element` defines `__len__` as its child count, so `not element` is true
both for `None` and for a present element with zero children. -/
def truthyElem : Option Xml → Bool
  | none => false
  | some e => !e.children.isEmpty

/-- Embedding of `XMLExtractor._extrair_dados_seguros`.  `xml_content`
is the decoded document text (the Python code re-decodes the bytes with
`errors='replace'` only to archive a 10,000-character audit copy).  The
`if not all([ide, emit, total])` guard fails for a missing **or
childless** mandatory element (see `truthyElem`); `dest` is only tested
with `is not None`. -/
def extrair_dados_seguros (O : Oracles) (root : Xml) (xml_content : Str) :
    Option NotaFiscal :=
  match infNFeLookup root with
  | none => none
  | some (inf_nfe, useNs) =>
    let dest := inf_nfe.findDesc (tagNS useNs "dest")
    match inf_nfe.findDesc (tagNS useNs "ide"), inf_nfe.findDesc (tagNS useNs "emit"),
        inf_nfe.findDesc (tagNS useNs "total") with
    | some ideE, some emitE, some totalE =>
      if ideE.children.isEmpty || emitE.children.isEmpty || totalE.children.isEmpty then
        none
      else
        match totalE.findDesc (tagNS useNs "ICMSTot") with
        | none => none
        | some icms_tot => some {
            numero := O.sanitize_string (get_text_safe ideE useNs "nNF")
            serie := O.sanitize_string (get_text_safe ideE useNs "serie")
            data_emissao := parse_date_safe O (get_text_safe ideE useNs "dhEmi")
            cnpj_emitente := sanitize_cnpj (get_text_safe emitE useNs "CNPJ")
            cnpj_destinatario :=
              match dest with
              | some destE => sanitize_cnpj (get_text_safe destE useNs "CNPJ")
              | none => none
            nome_emitente := O.sanitize_string (get_text_safe emitE useNs "xNome")
            nome_destinatario :=
              match dest with
              | some destE => some (O.sanitize_string (get_text_safe destE useNs "xNome"))
              | none => none
            valor_total := .num (sanitize_numeric_value (some (.str (get_text_safe icms_tot useNs "vNF"))))
            valor_icms := sanitize_numeric_value (some (.str (get_text_safe icms_tot useNs "vICMS")))
            valor_ipi := sanitize_numeric_value (some (.str (get_text_safe icms_tot useNs "vIPI")))
            valor_pis := sanitize_numeric_value (some (.str (get_text_safe icms_tot useNs "vPIS")))
            valor_cofins := sanitize_numeric_value (some (.str (get_text_safe icms_tot useNs "vCOFINS")))
            chave_acesso := sanitize_chave_acesso (replaceNFe ((inf_nfe.attr "Id".toList).getD []))
            natureza_operacao := O.sanitize_string (get_text_safe ideE useNs "natOp")
            itens := extrair_itens_seguros O useNs inf_nfe
            xml_original := some (xml_content.take 10000)
            situacao := "Pendente".toList
            data_vencimento := none
            processado_em := O.now }
    | _, _, _ => none

/-- Embedding of `XMLExtractor.extrair_dados_xml` : the security gate
(`parse_xml_safely`) followed by field extraction on the parsed root. -/
def extrair_dados_xml (decode : Bytes → Option Str) (parseXml : Str → Option Xml)
    (O : Oracles) (xml_content : Bytes) : Option NotaFiscal :=
  match parse_xml_safely decode parseXml xml_content with
  | none => none
  | some root => extrair_dados_seguros O root ((decode xml_content).getD [])

/-! ## PDF extractor, from `PDFExtractor.extrair_dados_pdf` -/

/-- The outcome of the eight `extrair_valor` regex searches over the
extracted DANFE text: `none` models "pattern did not match" (so the
literal default applies), `some s` models the captured group. -/
structure PdfMatches where
  cnpj_emitente : Option Str
  numero_nf : Option Str
  data_emissao_str : Option Str
  serie : Option Str
  nome_emitente : Option Str
  valor_total : Option Str
  chave_acesso : Option Str
  natureza_operacao : Option Str

/-- Embedding of `PDFExtractor.extrair_dados_pdf`, parameterised by
whether `pdfplumber` could read the file at all (`readable = false`
models the hard exception path that returns `None`) and by the pattern
match results.  Every missed pattern falls back to its literal default;
a missed or unparseable issue date falls back to `datetime.now()`;
`valor_total` keeps the matched *string* or defaults to the int `0`. -/
def extrair_dados_pdf (O : Oracles) (readable : Bool) (m : PdfMatches) :
    Option NotaFiscal :=
  if !readable then none
  else
    let data_emissao : Int :=
      match m.data_emissao_str with
      | some s => (O.strptimeBR s).getD O.now
      | none => O.now
    some {
      numero := m.numero_nf.getD ("Nº: 0".toList)
      cnpj_emitente := some (m.cnpj_emitente.getD ("CNPJ 00.111.111/0001-11".toList))
      data_emissao := some data_emissao
      serie := m.serie.getD ("SÉRIE 0".toList)
      nome_emitente := m.nome_emitente.getD ("EMITENTE NÃO ENCONTRADO".toList)
      valor_total :=
        match m.valor_total with
        | some s => .str s
        | none => .num 0
      chave_acesso :=
        some (m.chave_acesso.getD
          ("0000 0000 0000 0000 0000 0000 0000 0000 0000 0000 0000".toList))
      natureza_operacao := m.natureza_operacao.getD ("SEM NATUREZA".toList)
      processado_em := O.now }

/-! ## CSV upload dispatch, from `Dashboard.processar_csv_upload` -/

/-- A parsed pandas dataframe: column names and rows of possibly-missing
cells.  `df.empty` corresponds to `rows = []`. -/
structure Table where
  cols : List Str
  rows : List (List (Option Str))

/-- The keyword lists of the filename role dispatch, checked in source
order (`cabecalho`/`header` first, then `itens`/`items`). -/
def keywords_cabecalho : List Str := ["cabecalho".toList, "header".toList]

/-- Item-file keywords. -/
def keywords_itens : List Str := ["itens".toList, "items".toList]

/-- `any(keyword in s for keyword in keys)`; Python substring containment
is the contiguous-sublist relation. -/
def contains_any (s : Str) (keys : List Str) : Bool := keys.any (fun k => decide (k <:+: s))

/-- Streamlit message emitted when no delimiter yields a usable table. -/
def msg_csv_unprocessable : Str := "Nao foi possivel processar o arquivo CSV".toList

/-- Header-role info message. -/
def msg_header_file : Str := "Processando arquivo de CABECALHO".toList

/-- The up-front items rejection (`st.error` block) when the store holds
zero invoices. -/
def msg_itens_blocked : Str := "BLOQUEADO: Arquivo de itens nao pode ser processado".toList

/-- Second line of the rejection: the reason. -/
def msg_itens_blocked_motivo : Str :=
  "MOTIVO: Nenhuma nota fiscal encontrada no banco de dados".toList

/-- Third line of the rejection: the remedy. -/
def msg_itens_blocked_solucao : Str :=
  "SOLUCAO: Processe primeiro o arquivo de cabecalho".toList

/-- Pre-validation success message of the items branch. -/
def msg_itens_prevalidado : Str := "Pre-validacao OK".toList

/-- Flat-role info message. -/
def msg_tradicional_file : Str := "Processando arquivo CSV tradicional".toList

/-- Embedding of `Dashboard.processar_csv_upload`, parameterised by the
persisted-store state type `σ` with its `SELECT COUNT(*) FROM
notas_fiscais` view, and by the three role sub-processors
(`_processar_csv_cabecalho`, `_processar_csv_itens`,
`_processar_csv_tradicional`), which are not under test here.  The
pandas decode/delimiter phase is modelled by its outcome `df`: `none`
when no delimiter produced a table, otherwise the parsed table.  Result:
(new store state, return value of the Python method, messages). -/
def processar_csv_upload {σ : Type}
    (count_notas : σ → Nat)
    (proc_cabecalho : Table → Str → List NotaFiscal)
    (proc_itens : Table → Str → σ → σ × Option (List NotaFiscal) × List Str)
    (proc_tradicional : Table → Str → List NotaFiscal)
    (db : σ) (df : Option Table) (filename : Str) :
    σ × Option (List NotaFiscal) × List Str :=
  match df with
  | none => (db, none, [msg_csv_unprocessable])
  | some t =>
    if t.rows.isEmpty then (db, none, [msg_csv_unprocessable])
    else
      let filename_lower := toLowerStr filename
      if contains_any filename_lower keywords_cabecalho then
        (db, some (proc_cabecalho t filename), [msg_header_file])
      else if contains_any filename_lower keywords_itens then
        if count_notas db = 0 then
          (db, some [], [msg_itens_blocked, msg_itens_blocked_motivo, msg_itens_blocked_solucao])
        else
          let r := proc_itens t filename db
          (r.1, r.2.1, msg_itens_prevalidado :: r.2.2)
      else
        (db, some (proc_tradicional t filename), [msg_tradicional_file])

/-! ## Archive ordering, from `Dashboard.processar_zip_upload` -/

/-- Header-bucket test of the ZIP classification loop. -/
def isCabecalhoName (file_name : Str) : Bool :=
  contains_any (toLowerStr file_name) keywords_cabecalho

/-- Items-bucket test (only reached when the header test failed). -/
def isItensName (file_name : Str) : Bool :=
  contains_any (toLowerStr file_name) keywords_itens

/-- `file_name.endswith('/')` : a directory entry, skipped outright. -/
def isDirEntry (file_name : Str) : Bool := file_name.getLast? == some '/'

/-- The classification loop of `processar_zip_upload` : one pass over
`zip_ref.namelist()`, appending each non-directory entry to the header,
items, or other bucket (in that test order). -/
def classificar_zip (file_list : List Str) : List Str × List Str × List Str :=
  file_list.foldl (fun acc file_name =>
    if isDirEntry file_name then acc
    else if isCabecalhoName file_name then (acc.1 ++ [file_name], acc.2.1, acc.2.2)
    else if isItensName file_name then (acc.1, acc.2.1 ++ [file_name], acc.2.2)
    else (acc.1, acc.2.1, acc.2.2 ++ [file_name])) ([], [], [])

/-- `arquivos_ordenados = arquivos_cabecalho + outros_arquivos +
arquivos_itens` : the effective processing order of the bundle. -/
def arquivos_ordenados (file_list : List Str) : List Str :=
  let c := classificar_zip file_list
  c.1 ++ c.2.2 ++ c.2.1

/-- A concrete minimal invoice whose total value is the number 0, used
to instantiate validator theorems. -/
def nota_total_zero : NotaFiscal :=
  { numero := ['1'], serie := ['1'], data_emissao := some 0,
    cnpj_emitente := some ['1'], nome_emitente := ['1'],
    valor_total := PyVal.num 0, chave_acesso := some ['1'],
    natureza_operacao := ['1'] }

/-- Concrete witness document: a minimal plain-tag NF-e body whose
mandatory elements all have children and whose optional `dest` element
is present but childless. -/
def wit_ide : Xml := Xml.elem ("ide".toList) [] [] [Xml.elem ("nNF".toList) [] ("1".toList) []]

/-- Issuer element with one child. -/
def wit_emit : Xml :=
  Xml.elem ("emit".toList) [] [] [Xml.elem ("xNome".toList) [] ("E".toList) []]

/-- Totals wrapper containing `ICMSTot`. -/
def wit_total : Xml :=
  Xml.elem ("total".toList) [] [] [Xml.elem ("ICMSTot".toList) [] []
    [Xml.elem ("vNF".toList) [] ("1".toList) []]]

/-- Present-but-childless recipient element. -/
def wit_dest : Xml := Xml.elem ("dest".toList) [] [] []

/-- The `infNFe` body of the witness document. -/
def wit_inf : Xml :=
  Xml.elem ("infNFe".toList) [] [] [wit_ide, wit_emit, wit_dest, wit_total]

/-- Witness root: complete enough to extract, with a childless `dest`. -/
def wit_root : Xml := Xml.elem ("NFe".toList) [] [] [wit_inf]

/-- Witness root whose `ide` is present but childless. -/
def wit_root_empty_ide : Xml :=
  Xml.elem ("NFe".toList) [] [] [Xml.elem ("infNFe".toList) [] []
    [Xml.elem ("ide".toList) [] [] [], wit_emit, wit_total]]

/-! ## Theorems -/

/-- Setting an index at or beyond the taken prefix leaves the prefix
unchanged. -/
theorem take_set_of_le {α : Type} (l : List α) (a : α) (n i : Nat) (h : n ≤ i) :
    (l.set i a).take n = l.take n := by
  apply List.ext_getElem
  · simp
  · intro j h1 h2
    have hj : j < n := by simp [List.length_take] at h1; omega
    simp only [List.getElem_take, List.getElem_set]
    rw [if_neg (by omega)]

/-- Rendering a digit below 10 yields a digit character. -/
theorem digitChar_isDigit {d : Nat} (hd : d < 10) : (digitChar d).isDigit = true := by
  interval_cases d <;> decide

/-- Rendering then reading a digit below 10 is the identity. -/
theorem digitVal_digitChar {d : Nat} (hd : d < 10) : digitVal (digitChar d) = d := by
  interval_cases d <;> decide

/-- `stripNonDigits` keeps a rendered digit string intact. -/
theorem strip_renderDigits {ds : List Nat} (h : ∀ d ∈ ds, d < 10) :
    stripNonDigits (renderDigits ds) = renderDigits ds := by
  unfold stripNonDigits renderDigits
  apply List.filter_eq_self.mpr
  intro c hc
  obtain ⟨d, hd, rfl⟩ := List.mem_map.mp hc
  exact digitChar_isDigit (h d hd)

/-- Reading back the digit values of a rendered digit list. -/
theorem map_digitVal_renderDigits {ds : List Nat} (h : ∀ d ∈ ds, d < 10) :
    (renderDigits ds).map digitVal = ds := by
  unfold renderDigits
  rw [List.map_map]
  have h2 : ds.map (digitVal ∘ digitChar) = ds.map id :=
    List.map_eq_map_iff.mpr (fun a ha => digitVal_digitChar (h a ha))
  simpa using h2

/-- On a rendered 14-digit input, the check-digit loop of the code
computes exactly the spec's two weighted-modulo-11 comparisons. -/
theorem calcular_digito_renderDigits {ds : List Nat} (hlt : ∀ d ∈ ds, d < 10)
    (hlen : ds.length = 14) :
    calcular_digito_cnpj (renderDigits ds) =
      (decide (ds.getD 12 0 = specDigito (dotProd (ds.take 12) specPesos1)) &&
       decide (ds.getD 13 0 = specDigito (dotProd (ds.take 13) specPesos2))) := by
  unfold calcular_digito_cnpj
  rw [map_digitVal_renderDigits hlt]
  have h12 : ds.getD 12 99 = ds.getD 12 0 := by
    rw [List.getD_eq_getElem ds 99 (show 12 < ds.length by omega),
      List.getD_eq_getElem ds 0 (show 12 < ds.length by omega)]
  have h13 : ds.getD 13 99 = ds.getD 13 0 := by
    rw [List.getD_eq_getElem ds 99 (show 13 < ds.length by omega),
      List.getD_eq_getElem ds 0 (show 13 < ds.length by omega)]
  have hw1 : cnpjWeights 5 12 = specPesos1 := by decide
  have hw2 : cnpjWeights 6 13 = specPesos2 := by decide
  simp only [h12, h13, hw1, hw2, specDigito]
  by_cases h1 : ds.getD 12 0 = if dotProd (ds.take 12) specPesos1 % 11 < 2 then 0
      else 11 - dotProd (ds.take 12) specPesos1 % 11
  · simp [h1]
  · simp [h1]

/-- On a rendered 14-digit, not-all-identical input, `_validar_cnpj`
reduces to the check-digit computation. -/
theorem validar_cnpj_renderDigits {ds : List Nat} (hlt : ∀ d ∈ ds, d < 10)
    (hlen : ds.length = 14) (hne : ds ≠ List.replicate 14 (ds.headD 0)) :
    validar_cnpj (renderDigits ds) = calcular_digito_cnpj (renderDigits ds) := by
  unfold validar_cnpj
  have hnil : ¬ (renderDigits ds = []) := by
    intro h
    have := congrArg List.length h
    simp [renderDigits, hlen] at this
  rw [if_neg hnil, strip_renderDigits hlt]
  have hlen2 : (renderDigits ds).length = 14 := by simp [renderDigits, hlen]
  rw [if_neg (by omega)]
  have hrep : ¬ (renderDigits ds = List.replicate 14 ((renderDigits ds).headD ' ')) := by
    intro heq
    apply hne
    have hds : ds = List.replicate 14 (digitVal ((renderDigits ds).headD ' ')) := by
      conv_lhs => rw [← map_digitVal_renderDigits hlt, heq]
      simp [List.map_replicate]
    have hhead : ds.headD 0 = digitVal ((renderDigits ds).headD ' ') := by
      conv_lhs => rw [hds]
      simp [List.replicate_succ]
    rw [← hhead] at hds
    exact hds
  rw [if_neg hrep]

/-- An all-identical 14-digit input is rejected by `_validar_cnpj`. -/
theorem validar_cnpj_render_replicate {ds : List Nat} (hlt : ∀ d ∈ ds, d < 10)
    (hlen : ds.length = 14) (hrep : ds = List.replicate 14 (ds.headD 0)) :
    validar_cnpj (renderDigits ds) = false := by
  unfold validar_cnpj
  have hnil : ¬ (renderDigits ds = []) := by
    intro h
    have := congrArg List.length h
    simp [renderDigits, hlen] at this
  rw [if_neg hnil, strip_renderDigits hlt]
  have hlen2 : (renderDigits ds).length = 14 := by simp [renderDigits, hlen]
  rw [if_neg (by omega)]
  have heq : renderDigits ds = List.replicate 14 ((renderDigits ds).headD ' ') := by
    conv_lhs => rw [hrep]
    have hh : (renderDigits ds).headD ' ' = digitChar (ds.headD 0) := by
      conv_lhs => rw [hrep]
      simp [renderDigits, List.replicate_succ]
    rw [hh]
    simp [renderDigits, List.map_replicate]
  rw [if_pos heq]

/-- C1 (amended).  Every 14-digit issuer tax-id whose digits are not all
identical and whose two check digits satisfy the standard
weighted-modulo-11 algorithm is accepted by `_validar_cnpj`; and
changing either **check digit** (position 13 or 14) to a different digit
always makes validation return false.  (The original claim's stronger
statement — that changing *any* single digit invalidates the id — is
false: because remainders 0 and 1 both map to check digit 0, some
mutations of the first twelve digits survive; see the counterexample.) -/
theorem c1_valid_cnpj_accepted_and_check_digit_mutation_rejected
    (ds : List Nat) (h : SpecCnpjValido ds) :
    validar_cnpj (renderDigits ds) = true ∧
    ∀ j e, (j = 12 ∨ j = 13) → e < 10 → e ≠ ds.getD j 0 →
      validar_cnpj (renderDigits (ds.set j e)) = false := by
  obtain ⟨hlen, hlt, hne, h12, h13⟩ := h
  constructor
  · rw [validar_cnpj_renderDigits hlt hlen hne, calcular_digito_renderDigits hlt hlen,
      h12, h13]
    simp
  · intro j e hj he hne'
    have hlen' : (ds.set j e).length = 14 := by simp [hlen]
    have hlt' : ∀ d ∈ ds.set j e, d < 10 := by
      intro d hd
      rcases List.mem_or_eq_of_mem_set hd with h' | rfl
      · exact hlt d h'
      · exact he
    by_cases hrep : ds.set j e = List.replicate 14 ((ds.set j e).headD 0)
    · exact validar_cnpj_render_replicate hlt' hlen' hrep
    · rw [validar_cnpj_renderDigits hlt' hlen' hrep, calcular_digito_renderDigits hlt' hlen']
      rcases hj with rfl | rfl
      · have ht : (ds.set 12 e).take 12 = ds.take 12 := take_set_of_le ds e 12 12 (le_refl _)
        have hg : (ds.set 12 e).getD 12 0 = e := by
          rw [List.getD_eq_getElem _ 0 (show 12 < (ds.set 12 e).length by simp; omega)]
          exact List.getElem_set_self (by omega)
        rw [ht, hg]
        have hfalse : decide (e = specDigito (dotProd (ds.take 12) specPesos1)) = false :=
          decide_eq_false (h12 ▸ hne')
        simp [hfalse]
      · have ht12 : (ds.set 13 e).take 12 = ds.take 12 := take_set_of_le ds e 12 13 (by omega)
        have ht13 : (ds.set 13 e).take 13 = ds.take 13 := take_set_of_le ds e 13 13 (le_refl _)
        have hg12 : (ds.set 13 e).getD 12 0 = ds.getD 12 0 := by
          rw [List.getD_eq_getElem _ 0 (show 12 < (ds.set 13 e).length by simp; omega),
            List.getD_eq_getElem ds 0 (show 12 < ds.length by omega)]
          simp only [List.getElem_set]
          rw [if_neg (by omega)]
        have hg13 : (ds.set 13 e).getD 13 0 = e := by
          rw [List.getD_eq_getElem _ 0 (show 13 < (ds.set 13 e).length by simp; omega)]
          exact List.getElem_set_self (by omega)
        rw [ht12, ht13, hg12, hg13]
        have hfalse : decide (e = specDigito (dotProd (ds.take 13) specPesos2)) = false :=
          decide_eq_false (h13 ▸ hne')
        simp [hfalse]

/-- C1 counterexample.  The id `55000000000000` is accepted (it
satisfies the check-digit algorithm and is not all-identical), and so is
`75000000000000`, which differs from it in exactly one digit — refuting
the claim that every single-digit mutation of a valid id is rejected. -/
theorem c1_mutation_counterexample :
    validar_cnpj ("55000000000000".toList) = true ∧
    validar_cnpj ("75000000000000".toList) = true ∧
    ("55000000000000".toList).length = ("75000000000000".toList).length ∧
    numDiffer ("55000000000000".toList) ("75000000000000".toList) = 1 := by
  decide

/-- C1 witness: the amended theorem applied to the concrete valid id
`11.222.333/0001-81` and to the mutation of its first check digit. -/
theorem c1_witness :
    SpecCnpjValido [1, 1, 2, 2, 2, 3, 3, 3, 0, 0, 0, 1, 8, 1] ∧
    validar_cnpj (renderDigits [1, 1, 2, 2, 2, 3, 3, 3, 0, 0, 0, 1, 8, 1]) = true ∧
    validar_cnpj (renderDigits (List.set [1, 1, 2, 2, 2, 3, 3, 3, 0, 0, 0, 1, 8, 1] 12 0)) = false :=
  ⟨by decide,
    (c1_valid_cnpj_accepted_and_check_digit_mutation_rejected _ (by decide)).1,
    (c1_valid_cnpj_accepted_and_check_digit_mutation_rejected _ (by decide)).2
      12 0 (Or.inl rfl) (by decide) (by decide)⟩

/-- `replaceNFe` leaves any string without the letter `N` untouched. -/
theorem replaceNFe_eq_self {s : Str} (h : ∀ c ∈ s, c ≠ 'N') : replaceNFe s = s := by
  induction s with
  | nil => rfl
  | cons c rest ih =>
    rw [replaceNFe.eq_def]
    split
    · next rest2 heq =>
      exfalso
      have : c = 'N' := by injection heq
      exact h c (by simp) (by rw [this])
    · next c2 rest2 hexcl heq =>
      have hc : c = c2 := by injection heq
      have hr : rest = rest2 := by injection heq
      subst hc; subst hr
      rw [ih (fun x hx => h x (List.mem_cons_of_mem _ hx))]
    · next heq => exact absurd heq (by simp)

/-- A successful access-key sanitisation yields 44 digit characters. -/
theorem sanitize_chave_digits {s c : Str} (h : sanitize_chave_acesso s = some c) :
    c.length = 44 ∧ ∀ ch ∈ c, ch.isDigit = true := by
  unfold sanitize_chave_acesso at h
  by_cases h0 : s = []
  · simp [h0] at h
  · rw [if_neg h0] at h
    by_cases h1 : (stripNonDigits (replaceNFe s)).length ≠ 44
    · rw [if_pos h1] at h; exact absurd h (by simp)
    · rw [if_neg h1] at h
      have hc : c = stripNonDigits (replaceNFe s) := by
        injection h with h2
        exact h2.symm
      subst hc
      refine ⟨by omega, ?_⟩
      intro ch hch
      exact (List.mem_filter.mp hch).2

/-- C9.  Access-key sanitisation is idempotent: applying
`sanitize_chave_acesso` (lifted over a possibly-`None` argument, as at
its call sites) twice gives the same result as applying it once — a
failed (`None`) result stays `None`, and a successful 44-digit result is
returned unchanged by a second application. -/
theorem c9_sanitize_chave_acesso_idempotent (x : Option Str) :
    osanitize_chave_acesso (osanitize_chave_acesso x) = osanitize_chave_acesso x := by
  match x with
  | none => rfl
  | some s =>
    show osanitize_chave_acesso (sanitize_chave_acesso s) = sanitize_chave_acesso s
    cases hs : sanitize_chave_acesso s with
    | none => rfl
    | some c =>
      obtain ⟨hlen, hdig⟩ := sanitize_chave_digits hs
      show sanitize_chave_acesso c = some c
      unfold sanitize_chave_acesso
      have h0 : ¬ (c = []) := by
        intro h; rw [h] at hlen; simp at hlen
      rw [if_neg h0]
      have hrep : replaceNFe c = c :=
        replaceNFe_eq_self (fun ch hch => by
          intro hN
          have hd := hdig ch hch
          rw [hN] at hd
          simp [Char.isDigit] at hd)
      rw [hrep]
      have hstrip : stripNonDigits c = c :=
        List.filter_eq_self.mpr hdig
      rw [hstrip]
      rw [if_neg (by omega)]

/-- A digit character is not whitespace. -/
theorem isDigit_not_isWhitespace {c : Char} (h : c.isDigit = true) : c.isWhitespace = false := by
  by_contra hw
  rw [Bool.not_eq_false] at hw
  simp [Char.isWhitespace] at hw
  rcases hw with ((rfl | rfl) | rfl) | rfl <;> exact absurd h (by decide)

/-- `dropWhile isWhitespace` keeps a whitespace-free string intact. -/
theorem dropWhile_ws_eq_self {s : Str} (h : ∀ c ∈ s, c.isWhitespace = false) :
    s.dropWhile Char.isWhitespace = s := by
  cases s with
  | nil => rfl
  | cons a l =>
    rw [List.dropWhile_cons, if_neg]
    simp [h a (List.mem_cons_self a l)]

/-- `str.strip()` keeps a whitespace-free string intact. -/
theorem stripWs_eq_self {s : Str} (h : ∀ c ∈ s, c.isWhitespace = false) : stripWs s = s := by
  unfold stripWs
  rw [dropWhile_ws_eq_self h]
  rw [dropWhile_ws_eq_self (fun c hc => h c (List.mem_reverse.mp hc))]
  exact List.reverse_reverse s

/-- `takeWhile` walks through a prefix that satisfies the predicate. -/
theorem takeWhile_append_all {p : Char → Bool} {a b : Str} (ha : ∀ c ∈ a, p c = true) :
    (a ++ b).takeWhile p = a ++ b.takeWhile p := by
  induction a with
  | nil => simp
  | cons c l ih =>
    simp only [List.cons_append, List.takeWhile_cons, ha c (List.mem_cons_self c l)]
    rw [ih (fun x hx => ha x (List.mem_cons_of_mem _ hx))]
    simp

/-- `dropWhile` discards a prefix that satisfies the predicate. -/
theorem dropWhile_append_all {p : Char → Bool} {a b : Str} (ha : ∀ c ∈ a, p c = true) :
    (a ++ b).dropWhile p = b.dropWhile p := by
  induction a with
  | nil => simp
  | cons c l ih =>
    simp only [List.cons_append, List.dropWhile_cons, ha c (List.mem_cons_self c l)]
    rw [ih (fun x hx => ha x (List.mem_cons_of_mem _ hx))]
    simp

/-- `float` on `digits.digits` yields the expected rational. -/
theorem parseUnsignedFloat_digits (ip fp : Str) (hip : ∀ c ∈ ip, c.isDigit = true)
    (hfp : ∀ c ∈ fp, c.isDigit = true) (hne : ip ≠ []) :
    parseUnsignedFloat (ip ++ '.' :: fp) =
      some ((natOfDigits ip : Rat) + (natOfDigits fp : Rat) / (10 ^ fp.length)) := by
  unfold parseUnsignedFloat
  have htake : (ip ++ '.' :: fp).takeWhile Char.isDigit = ip := by
    rw [takeWhile_append_all hip, List.takeWhile_cons]
    simp
  have hdrop : (ip ++ '.' :: fp).dropWhile Char.isDigit = '.' :: fp := by
    rw [dropWhile_append_all hip, List.dropWhile_cons]
    simp
  rw [htake, hdrop]
  show (if fp.all Char.isDigit ∧ (ip ≠ [] ∨ fp ≠ []) then _ else _) = _
  rw [if_pos ⟨List.all_eq_true.mpr hfp, Or.inl hne⟩]

/-- `float` on an unsigned `digits.digits` string, with the sign
branches ruled out. -/
theorem parseFloatStr_digits (ip fp : Str) (hip : ∀ c ∈ ip, c.isDigit = true)
    (hfp : ∀ c ∈ fp, c.isDigit = true) (hne : ip ≠ []) :
    parseFloatStr (ip ++ '.' :: fp) =
      some ((natOfDigits ip : Rat) + (natOfDigits fp : Rat) / (10 ^ fp.length)) := by
  unfold parseFloatStr
  have hws : ∀ c ∈ ip ++ '.' :: fp, c.isWhitespace = false := by
    intro c hc
    rcases List.mem_append.mp hc with h1 | h2
    · exact isDigit_not_isWhitespace (hip c h1)
    · rcases List.mem_cons.mp h2 with rfl | h3
      · decide
      · exact isDigit_not_isWhitespace (hfp c h3)
  rw [stripWs_eq_self hws]
  split
  · next rest heq =>
    exfalso
    cases ip with
    | nil => simp at heq
    | cons c l =>
      have hc : c = '-' := by
        have := congrArg (List.headD · ' ') heq
        simpa using this
      have hd := hip c (List.mem_cons_self c l)
      rw [hc] at hd
      exact absurd hd (by decide)
  · next rest heq =>
    exfalso
    cases ip with
    | nil => simp at heq
    | cons c l =>
      have hc : c = '+' := by
        have := congrArg (List.headD · ' ') heq
        simpa using this
      have hd := hip c (List.mem_cons_self c l)
      rw [hc] at hd
      exact absurd hd (by decide)
  · exact parseUnsignedFloat_digits ip fp hip hfp hne

/-- Comma-to-dot replacement leaves digit strings intact. -/
theorem map_commaToDot_digits {s : Str} (h : ∀ c ∈ s, c.isDigit = true) :
    s.map commaToDot = s := by
  have h2 : s.map commaToDot = s.map id := List.map_eq_map_iff.mpr (fun a ha => by
    unfold commaToDot
    rw [if_neg (fun hc : a = ',' => absurd (h ',' (hc ▸ ha)) (by decide))]
    rfl)
  simpa using h2

/-- C5 (amended).  Both numeric converters are total and yield 0.0 on
unparseable input.  For digit strings around a comma (no dot present),
both treat the comma as the decimal separator.  But only the CSV item
helper `converter_valor_numerico` implements the thousands rule: on
`'1.234,56'` it removes the dot and parses 1234.56, while the generic
`sanitize_numeric_value` blindly rewrites every comma to a dot, obtains
the unparseable `'1.234.56'`, and falls back to 0.0 — refuting the
original claim that "the numeric sanitizer" parses `'1.234,56'` as
1234.56. -/
theorem c5_numeric_sanitizer_amended (ip fp : Str) (hip : ∀ c ∈ ip, c.isDigit = true)
    (hfp : ∀ c ∈ fp, c.isDigit = true) (hne : ip ≠ []) :
    converter_valor_numerico (some (ip ++ ',' :: fp)) =
      (natOfDigits ip : Rat) + (natOfDigits fp : Rat) / (10 ^ fp.length) ∧
    sanitize_numeric_value (some (.str (ip ++ ',' :: fp))) =
      (natOfDigits ip : Rat) + (natOfDigits fp : Rat) / (10 ^ fp.length) ∧
    converter_valor_numerico (some ("1.234,56".toList)) = (1234.56 : Rat) ∧
    sanitize_numeric_value (some (.str ("1.234,56".toList))) = 0 := by
  have hws : ∀ c ∈ ip ++ ',' :: fp, c.isWhitespace = false := by
    intro c hc
    rcases List.mem_append.mp hc with h1 | h2
    · exact isDigit_not_isWhitespace (hip c h1)
    · rcases List.mem_cons.mp h2 with rfl | h3
      · decide
      · exact isDigit_not_isWhitespace (hfp c h3)
  have hkeep : (ip ++ ',' :: fp).filter keepNumChar = ip ++ ',' :: fp := by
    apply List.filter_eq_self.mpr
    intro c hc
    rcases List.mem_append.mp hc with h1 | h2
    · simp [keepNumChar, hip c h1]
    · rcases List.mem_cons.mp h2 with rfl | h3
      · decide
      · simp [keepNumChar, hfp c h3]
  have hnil : ip ++ ',' :: fp ≠ [] := by simp
  have hmap : (ip ++ ',' :: fp).map commaToDot = ip ++ '.' :: fp := by
    rw [List.map_append, map_commaToDot_digits hip]
    simp [map_commaToDot_digits hfp, commaToDot]
  have hdot : (ip ++ ',' :: fp).contains '.' = false := by
    rw [Bool.eq_false_iff]
    intro hmem
    have hm := List.elem_iff.mp hmem
    rcases List.mem_append.mp hm with h1 | h2
    · exact absurd (hip _ h1) (by decide)
    · rcases List.mem_cons.mp h2 with hh | h3
      · exact absurd hh (by decide)
      · exact absurd (hfp _ h3) (by decide)
  have hcomma : (ip ++ ',' :: fp).contains ',' = true :=
    List.elem_iff.mpr (List.mem_append.mpr (Or.inr (List.mem_cons_self _ _)))
  have hparse := parseFloatStr_digits ip fp hip hfp hne
  refine ⟨?_, ?_, ?_, ?_⟩
  · simp only [converter_valor_numerico]
    rw [if_neg hnil, stripWs_eq_self hws, if_neg hnil, hkeep, hdot, hcomma]
    simp only [Bool.and_false, Bool.false_eq_true, if_false, if_true]
    rw [hmap, hparse]
    rfl
  · simp only [sanitize_numeric_value]
    rw [hkeep, hmap, hparse]
    rfl
  · have hsplit : "1234.56".toList = "1234".toList ++ '.' :: "56".toList := rfl
    have h1 : converter_valor_numerico (some ("1.234,56".toList)) =
        (parseFloatStr ("1234.56".toList)).getD 0 := rfl
    rw [h1, hsplit, parseFloatStr_digits ("1234".toList) ("56".toList)
      (by decide) (by decide) (by decide)]
    have e1 : natOfDigits ("1234".toList) = 1234 := by decide
    have e2 : natOfDigits ("56".toList) = 56 := by decide
    have e3 : ("56".toList).length = 2 := by decide
    rw [Option.getD_some, e1, e2, e3]
    norm_num
  · have hnone : parseFloatStr ("1.234.56".toList) = none := by decide
    have h1 : sanitize_numeric_value (some (.str ("1.234,56".toList))) =
        (parseFloatStr ("1.234.56".toList)).getD 0 := rfl
    rw [h1, hnone]
    rfl

/-- C5 counterexample.  On the input `'1.234,56'` the sanitizer
`sanitize_numeric_value` returns 0.0 (its comma-to-dot rewrite produces
the unparseable `'1.234.56'`), not the number 1234.56 the claim
requires. -/
theorem c5_thousands_counterexample :
    sanitize_numeric_value (some (.str ("1.234,56".toList))) = 0 ∧ (0 : Rat) ≠ (1234.56 : Rat) := by
  constructor
  · have hnone : parseFloatStr ("1.234.56".toList) = none := by decide
    have h1 : sanitize_numeric_value (some (.str ("1.234,56".toList))) =
        (parseFloatStr ("1.234.56".toList)).getD 0 := rfl
    rw [h1, hnone]
    rfl
  · norm_num

/-- C5 witness: the amended theorem applied to the concrete comma-decimal
input `'1,5'`. -/
theorem c5_witness :
    converter_valor_numerico (some (['1'] ++ ',' :: ['5'])) =
      (natOfDigits ['1'] : Rat) + (natOfDigits ['5'] : Rat) / (10 ^ (['5'] : Str).length) :=
  (c5_numeric_sanitizer_amended ['1'] ['5'] (by decide) (by decide) (by decide)).1

/-- C3.  For every bundle name list, the effective processing order is:
all non-directory entries whose lowercased names contain
`cabecalho`/`header` first (in bundle order), then all remaining
unmatched entries, then all entries matching `itens`/`items` last —
regardless of the bundle's physical order; in particular
`[items.csv, other.pdf, header.csv]` is processed as
`[header.csv, other.pdf, items.csv]`.  (An entry matching both keyword
sets is classified as a header entry, per the `elif` in the source.) -/
theorem c3_zip_processing_order (names : List Str) :
    arquivos_ordenados names =
      names.filter (fun n => !isDirEntry n && isCabecalhoName n) ++
      names.filter (fun n => !isDirEntry n && !isCabecalhoName n && !isItensName n) ++
      names.filter (fun n => !isDirEntry n && !isCabecalhoName n && isItensName n) ∧
    arquivos_ordenados ["items.csv".toList, "other.pdf".toList, "header.csv".toList] =
      ["header.csv".toList, "other.pdf".toList, "items.csv".toList] := by
  constructor
  · have key : ∀ (l : List Str) (cab its outs : List Str),
        l.foldl (fun acc file_name =>
          if isDirEntry file_name then acc
          else if isCabecalhoName file_name then (acc.1 ++ [file_name], acc.2.1, acc.2.2)
          else if isItensName file_name then (acc.1, acc.2.1 ++ [file_name], acc.2.2)
          else (acc.1, acc.2.1, acc.2.2 ++ [file_name])) (cab, its, outs) =
          (cab ++ l.filter (fun n => !isDirEntry n && isCabecalhoName n),
           its ++ l.filter (fun n => !isDirEntry n && !isCabecalhoName n && isItensName n),
           outs ++ l.filter (fun n => !isDirEntry n && !isCabecalhoName n && !isItensName n)) := by
      intro l
      induction l with
      | nil => intro cab its outs; simp
      | cons n rest ih =>
        intro cab its outs
        by_cases h1 : isDirEntry n
        · simp [List.foldl_cons, List.filter_cons, h1, ih]
        · by_cases h2 : isCabecalhoName n
          · simp [List.foldl_cons, List.filter_cons, h1, h2, ih]
          · by_cases h3 : isItensName n
            · simp [List.foldl_cons, List.filter_cons, h1, h2, h3, ih]
            · simp [List.foldl_cons, List.filter_cons, h1, h2, h3, ih]
    unfold arquivos_ordenados classificar_zip
    rw [key names [] [] []]
    simp
  · decide

/-- C2 (amended).  For every items-role CSV file (lowercased filename
containing `itens`/`items` and not `cabecalho`/`header`) whose content
parses into a table with at least one row, if the persisted store counts
zero invoices the whole file is rejected up front: the store is
untouched (no line item is persisted — the theorem holds for **every**
possible items sub-processor, which is therefore never consulted), an
empty invoice list is returned, and the three-line rejection message is
produced.  (The original claim's "regardless of the file's row content"
fails only for content that parses empty or not at all: there the method
returns `None` with a parse-error message, not an empty list; zero items
are still persisted.  See the counterexample.) -/
theorem c2_itens_precondition_amended {σ : Type}
    (count_notas : σ → Nat) (proc_cabecalho : Table → Str → List NotaFiscal)
    (proc_itens : Table → Str → σ → σ × Option (List NotaFiscal) × List Str)
    (proc_tradicional : Table → Str → List NotaFiscal)
    (db : σ) (t : Table) (filename : Str)
    (hrows : t.rows ≠ [])
    (hcab : contains_any (toLowerStr filename) keywords_cabecalho = false)
    (hitens : contains_any (toLowerStr filename) keywords_itens = true)
    (hcount : count_notas db = 0) :
    processar_csv_upload count_notas proc_cabecalho proc_itens proc_tradicional
        db (some t) filename =
      (db, some [], [msg_itens_blocked, msg_itens_blocked_motivo, msg_itens_blocked_solucao]) := by
  simp only [processar_csv_upload]
  rw [if_neg (by simp [hrows])]
  rw [if_neg (by simp [hcab]), if_pos (by simp [hitens]), if_pos hcount]

/-- C2 counterexample.  An items-named CSV whose content parses to an
empty table, submitted against a store with zero invoices, yields `None`
(a parse-error result) rather than the empty result list the claim
promises for every row content. -/
theorem c2_empty_items_counterexample :
    processar_csv_upload (fun n : Nat => n) (fun _ _ => []) (fun _ _ db => (db, some [], []))
      (fun _ _ => []) 0 (some { cols := [], rows := [] }) ("itens.csv".toList) =
      (0, none, [msg_csv_unprocessable]) ∧
    (none : Option (List NotaFiscal)) ≠ some [] :=
  ⟨rfl, by simp⟩

/-- C2 witness: the amended theorem applied to a concrete one-row items
file named `itens.csv` against an empty store. -/
theorem c2_witness :
    processar_csv_upload (fun n : Nat => n) (fun _ _ => []) (fun _ _ db => (db, some [], []))
      (fun _ _ => []) 0 (some { cols := [], rows := [[none]] }) ("itens.csv".toList) =
      (0, some [], [msg_itens_blocked, msg_itens_blocked_motivo, msg_itens_blocked_solucao]) :=
  c2_itens_precondition_amended (fun n : Nat => n) (fun _ _ => []) (fun _ _ db => (db, some [], []))
    (fun _ _ => []) 0 { cols := [], rows := [[none]] } ("itens.csv".toList)
    (by simp) (by decide) (by decide) rfl

/-- A security-gate rejection propagates to the extractor. -/
theorem extrair_none_of_parse_none {decode : Bytes → Option Str} {parseXml : Str → Option Xml}
    {O : Oracles} {xml_content : Bytes}
    (h : parse_xml_safely decode parseXml xml_content = none) :
    extrair_dados_xml decode parseXml O xml_content = none := by
  unfold extrair_dados_xml
  rw [h]

/-- C4.  Every XML byte input longer than 10 MiB (10*1024*1024 bytes)
is rejected: both the safe parser and the whole extractor return `None`,
and they do so for **every** possible decoder and parser behaviour —
i.e. the rejection happens before any decoding or parsing is consulted. -/
theorem c4_oversized_xml_rejected_before_parse (decode : Bytes → Option Str) (parseXml : Str → Option Xml) (O : Oracles)
    (xml_content : Bytes) (h : MAX_XML_SIZE < xml_content.length) :
    parse_xml_safely decode parseXml xml_content = none ∧
    extrair_dados_xml decode parseXml O xml_content = none := by
  have hsize : validate_xml_size xml_content = false := by
    simp only [validate_xml_size, Bool.not_eq_eq_eq_not, Bool.not_false, decide_eq_true_eq]
    omega
  have h1 : parse_xml_safely decode parseXml xml_content = none := by
    unfold parse_xml_safely
    rw [hsize]
    rfl
  exact ⟨h1, extrair_none_of_parse_none h1⟩

/-- C4 witness: the theorem applied to a concrete (10 MiB + 1)-byte
input and concrete decoder/parser stubs. -/
theorem c4_witness :
    parse_xml_safely (fun _ => some []) (fun _ => none)
      (List.replicate (MAX_XML_SIZE + 1) 0) = none :=
  (c4_oversized_xml_rejected_before_parse (fun _ => some []) (fun _ => none) ⟨id, fun _ => none, fun _ => none, 0⟩
    (List.replicate (MAX_XML_SIZE + 1) 0) (by simp)).1

/-- C6.  XML extraction returns `None` whenever (a) the bytes are not
strictly decodable as UTF-8, (b) the XML is malformed, (c) the root
element, after stripping any namespace, is not one of the two recognised
NF-e roots (`nfeProc`, `NFe`), or (d) the document lacks the mandatory
`infNFe` inner element under both the namespaced and the unprefixed
lookup.  The embedding is pure, so a `None` result carries no side
effects. -/
theorem c6_xml_structural_rejections (decode : Bytes → Option Str) (parseXml : Str → Option Xml) (O : Oracles)
    (xml_content : Bytes) :
    (decode xml_content = none →
      extrair_dados_xml decode parseXml O xml_content = none) ∧
    (∀ s, decode xml_content = some s → parseXml s = none →
      extrair_dados_xml decode parseXml O xml_content = none) ∧
    (∀ s root, decode xml_content = some s → parseXml s = some root →
      valid_root_tags.contains (localName root.tag) = false →
      extrair_dados_xml decode parseXml O xml_content = none) ∧
    (∀ s root, decode xml_content = some s → parseXml s = some root →
      root.findDesc (nfeTag "infNFe") = none → root.findDesc ("infNFe".toList) = none →
      extrair_dados_xml decode parseXml O xml_content = none) := by
  by_cases hsz : (!validate_xml_size xml_content) = true
  · have h1 : parse_xml_safely decode parseXml xml_content = none := by
      unfold parse_xml_safely
      rw [if_pos hsz]
    exact ⟨fun _ => extrair_none_of_parse_none h1,
      fun _ _ _ => extrair_none_of_parse_none h1,
      fun _ _ _ _ _ => extrair_none_of_parse_none h1,
      fun _ _ _ _ _ _ => extrair_none_of_parse_none h1⟩
  · refine ⟨?_, ?_, ?_, ?_⟩
    · intro hd
      apply extrair_none_of_parse_none
      unfold parse_xml_safely
      rw [if_neg hsz, hd]
    · intro s hd hp
      apply extrair_none_of_parse_none
      unfold parse_xml_safely
      rw [if_neg hsz, hd]
      simp only [hp]
    · intro s root hd hp htags
      apply extrair_none_of_parse_none
      have hv : validate_xml_structure root = false := by
        unfold validate_xml_structure
        rw [if_pos (show (!valid_root_tags.contains (localName root.tag)) = true by
          rw [htags]; rfl)]
      unfold parse_xml_safely
      rw [if_neg hsz, hd]
      simp only [hp, hv, Bool.false_eq_true, if_false]
    · intro s root hd hp hns hplain
      apply extrair_none_of_parse_none
      have hv : validate_xml_structure root = false := by
        unfold validate_xml_structure
        rw [hns, hplain]
        cases hc : valid_root_tags.contains (localName root.tag) <;> simp
      unfold parse_xml_safely
      rw [if_neg hsz, hd]
      simp only [hp, hv, Bool.false_eq_true, if_false]

/-- C6 witness: one concrete instantiation per rejection cause —
undecodable bytes, unparseable text, a `foo`-rooted document, and an
`NFe` root with no `infNFe` descendant. -/
theorem c6_witness :
    extrair_dados_xml (fun _ => none) (fun _ => none)
      ⟨id, fun _ => none, fun _ => none, 0⟩ [] = none ∧
    extrair_dados_xml (fun _ => some []) (fun _ => none)
      ⟨id, fun _ => none, fun _ => none, 0⟩ [] = none ∧
    extrair_dados_xml (fun _ => some []) (fun _ => some (Xml.elem ("foo".toList) [] [] []))
      ⟨id, fun _ => none, fun _ => none, 0⟩ [] = none ∧
    extrair_dados_xml (fun _ => some []) (fun _ => some (Xml.elem ("NFe".toList) [] [] []))
      ⟨id, fun _ => none, fun _ => none, 0⟩ [] = none :=
  ⟨(c6_xml_structural_rejections _ _ _ _).1 rfl,
   (c6_xml_structural_rejections _ _ _ _).2.1 [] rfl rfl,
   (c6_xml_structural_rejections _ _ _ _).2.2.1 [] (Xml.elem ("foo".toList) [] [] []) rfl rfl (by decide),
   (c6_xml_structural_rejections _ _ _ _).2.2.2 [] (Xml.elem ("NFe".toList) [] [] []) rfl rfl rfl rfl⟩

/-- C7.  A readable PDF whose text has no total-value match still yields
a record (the extractor only fails on a hard processing exception), with
`valor_total` defaulted to the number 0; `_validar_valores` then rejects
any record whose total is the number 0, and any `_validar_valores`
failure makes full validation return false — the permissive extractor
and the strict validator compose. -/
theorem c7_pdf_default_total_fails_validation (O : Oracles) (m : PdfMatches) (hvalor : m.valor_total = none) :
    (extrair_dados_pdf O true m).isSome = true ∧
    (extrair_dados_pdf O true m).map NotaFiscal.valor_total = some (PyVal.num 0) ∧
    (∀ nota : NotaFiscal, nota.valor_total = PyVal.num 0 →
      validar_valores nota = (false, nota)) ∧
    (∀ (now : Int) (nota : NotaFiscal), (validar_valores nota).1 = false →
      (validar_nota_fiscal now nota).1 = false) := by
  refine ⟨?_, ?_, ?_, ?_⟩
  · simp [extrair_dados_pdf]
  · simp [extrair_dados_pdf, hvalor]
  · intro nota h
    simp only [validar_valores, validar_valores_checks, h]
    norm_num
  · intro now nota hfalse
    unfold validar_nota_fiscal
    by_cases h1 : validar_campos_obrigatorios nota
    · by_cases h2 : validar_cnpj_campo nota.cnpj_emitente
      · by_cases h3 : validar_chave_acesso nota.chave_acesso
        · simp [h1, h2, h3, hfalse]
        · simp [h1, h2, h3]
      · simp [h1, h2]
    · simp [h1]

/-- C8.  Validation is a total boolean function whose only state change
is the in-place coercion of a string-typed `valor_total` into the parsed
number: for every invoice, every field other than `valor_total` of the
returned invoice equals the input's, and `valor_total` is either
unchanged or the numeric coercion of its string form.  (In the pure
embedding, totality models "never raises past its boundary".) -/
theorem c8_validation_frame_property (now : Int) (nota : NotaFiscal) :
    ((validar_nota_fiscal now nota).2.numero = nota.numero ∧
     (validar_nota_fiscal now nota).2.serie = nota.serie ∧
     (validar_nota_fiscal now nota).2.data_emissao = nota.data_emissao ∧
     (validar_nota_fiscal now nota).2.cnpj_emitente = nota.cnpj_emitente ∧
     (validar_nota_fiscal now nota).2.nome_emitente = nota.nome_emitente ∧
     (validar_nota_fiscal now nota).2.chave_acesso = nota.chave_acesso ∧
     (validar_nota_fiscal now nota).2.natureza_operacao = nota.natureza_operacao ∧
     (validar_nota_fiscal now nota).2.situacao = nota.situacao ∧
     (validar_nota_fiscal now nota).2.data_vencimento = nota.data_vencimento ∧
     (validar_nota_fiscal now nota).2.cnpj_destinatario = nota.cnpj_destinatario ∧
     (validar_nota_fiscal now nota).2.nome_destinatario = nota.nome_destinatario ∧
     (validar_nota_fiscal now nota).2.valor_icms = nota.valor_icms ∧
     (validar_nota_fiscal now nota).2.valor_ipi = nota.valor_ipi ∧
     (validar_nota_fiscal now nota).2.valor_pis = nota.valor_pis ∧
     (validar_nota_fiscal now nota).2.valor_cofins = nota.valor_cofins ∧
     (validar_nota_fiscal now nota).2.itens = nota.itens ∧
     (validar_nota_fiscal now nota).2.xml_original = nota.xml_original ∧
     (validar_nota_fiscal now nota).2.processado_em = nota.processado_em) ∧
    ((validar_nota_fiscal now nota).2.valor_total = nota.valor_total ∨
     ∃ s q, nota.valor_total = PyVal.str s ∧ parseFloatStr (s.map commaToDot) = some q ∧
       (validar_nota_fiscal now nota).2.valor_total = PyVal.num q) := by
  have key2 : (validar_valores nota).2 = nota ∨
      ∃ s q, nota.valor_total = PyVal.str s ∧ parseFloatStr (s.map commaToDot) = some q ∧
        (validar_valores nota).2 = { nota with valor_total := PyVal.num q } := by
    unfold validar_valores
    cases hv : nota.valor_total with
    | num q => left; rfl
    | str s =>
      cases hp : parseFloatStr (s.map commaToDot) with
      | none => left; simp only [hp]
      | some q => right; refine ⟨s, q, rfl, hp, ?_⟩; simp only [hp]
  have key : (validar_nota_fiscal now nota).2 = nota ∨
      (validar_nota_fiscal now nota).2 = (validar_valores nota).2 := by
    unfold validar_nota_fiscal
    by_cases h1 : validar_campos_obrigatorios nota
    · by_cases h2 : validar_cnpj_campo nota.cnpj_emitente
      · by_cases h3 : validar_chave_acesso nota.chave_acesso
        · simp only [h1, h2, h3, Bool.not_true, Bool.false_eq_true, if_false]
          by_cases h4 : (validar_valores nota).1
          · by_cases h5 : validar_data now (validar_valores nota).2.data_emissao
            · by_cases h6 : (!(validar_valores nota).2.itens.isEmpty &&
                  !validar_itens (validar_valores nota).2.itens) = true
              · simp [h4, h5, h6]
              · simp [h4, h5, h6]
            · simp [h4, h5]
          · simp [h4]
        · simp [h1, h2, h3]
      · simp [h1, h2]
    · simp [h1]
  rcases key with hk | hk
  · rw [hk]
    exact ⟨⟨rfl, rfl, rfl, rfl, rfl, rfl, rfl, rfl, rfl, rfl, rfl, rfl, rfl, rfl, rfl,
      rfl, rfl, rfl⟩, Or.inl rfl⟩
  · rcases key2 with h2 | ⟨s, q, hs, hq, h2⟩
    · rw [hk, h2]
      exact ⟨⟨rfl, rfl, rfl, rfl, rfl, rfl, rfl, rfl, rfl, rfl, rfl, rfl, rfl, rfl, rfl,
        rfl, rfl, rfl⟩, Or.inl rfl⟩
    · rw [hk, h2]
      exact ⟨⟨rfl, rfl, rfl, rfl, rfl, rfl, rfl, rfl, rfl, rfl, rfl, rfl, rfl, rfl, rfl,
        rfl, rfl, rfl⟩, Or.inr ⟨s, q, hs, hq, rfl⟩⟩

/-- C7 witness: the theorem applied to concrete oracles, a match record
with no total-value match, and the concrete defaulted-total invoice. -/
theorem c7_witness :
    (extrair_dados_pdf ⟨id, fun _ => none, fun _ => none, 0⟩ true
      ⟨none, none, none, none, none, none, none, none⟩).map NotaFiscal.valor_total =
        some (PyVal.num 0) ∧
    (validar_nota_fiscal 0 nota_total_zero).1 = false :=
  ⟨(c7_pdf_default_total_fails_validation ⟨id, fun _ => none, fun _ => none, 0⟩
      ⟨none, none, none, none, none, none, none, none⟩ rfl).2.1,
   (c7_pdf_default_total_fails_validation ⟨id, fun _ => none, fun _ => none, 0⟩
      ⟨none, none, none, none, none, none, none, none⟩ rfl).2.2.2 0 _
     (congrArg Prod.fst
       ((c7_pdf_default_total_fails_validation ⟨id, fun _ => none, fun _ => none, 0⟩
          ⟨none, none, none, none, none, none, none, none⟩ rfl).2.2.1
         nota_total_zero rfl))⟩

/-- C10.  During XML field extraction, the mandatory-element guard is a
truthiness test: once `infNFe` is found, extraction returns `None` not
only when `ide`, `emit` or `total` is absent but also when any of them
is present with zero children (a childless ElementTree element is
falsy); conversely, when all three are present with children and
`ICMSTot` is found, a record is produced regardless of the optional
`dest` element, which is only tested for presence, so a childless `dest`
does not block extraction. -/
theorem c10_childless_mandatory_elements (O : Oracles) (root : Xml) (content : Str) :
    (∀ inf useNs, infNFeLookup root = some (inf, useNs) →
      (truthyElem (inf.findDesc (tagNS useNs "ide")) = false ∨
       truthyElem (inf.findDesc (tagNS useNs "emit")) = false ∨
       truthyElem (inf.findDesc (tagNS useNs "total")) = false) →
      extrair_dados_seguros O root content = none) ∧
    (∀ inf useNs ideE emitE totalE, infNFeLookup root = some (inf, useNs) →
      inf.findDesc (tagNS useNs "ide") = some ideE → ideE.children ≠ [] →
      inf.findDesc (tagNS useNs "emit") = some emitE → emitE.children ≠ [] →
      inf.findDesc (tagNS useNs "total") = some totalE → totalE.children ≠ [] →
      (totalE.findDesc (tagNS useNs "ICMSTot")).isSome = true →
      (extrair_dados_seguros O root content).isSome = true) := by
  constructor
  · intro inf useNs hl htr
    cases hide : inf.findDesc (tagNS useNs "ide") with
    | none => simp [extrair_dados_seguros, hl, hide]
    | some ideE =>
      cases hemit : inf.findDesc (tagNS useNs "emit") with
      | none => simp [extrair_dados_seguros, hl, hide, hemit]
      | some emitE =>
        cases htotal : inf.findDesc (tagNS useNs "total") with
        | none => simp [extrair_dados_seguros, hl, hide, hemit, htotal]
        | some totalE =>
          rw [hide, hemit, htotal] at htr
          simp only [truthyElem, Bool.not_eq_false'] at htr
          simp only [extrair_dados_seguros, hl, hide, hemit, htotal]
          rcases htr with h | h | h <;> simp [h]
  · intro inf useNs ideE emitE totalE hl hide hchi hemit hche htotal hcht hicms
    cases hic : totalE.findDesc (tagNS useNs "ICMSTot") with
    | none => rw [hic] at hicms; simp at hicms
    | some icms =>
      simp only [extrair_dados_seguros, hl, hide, hemit, htotal, hic]
      simp [List.isEmpty_eq_false.mpr hchi, List.isEmpty_eq_false.mpr hche,
        List.isEmpty_eq_false.mpr hcht]

/-- C10 witness: the theorem applied to a concrete document with a
childless `ide` (extraction yields `None`) and to a concrete complete
document whose `dest` is present but childless (extraction succeeds). -/
theorem c10_witness :
    extrair_dados_seguros ⟨id, fun _ => none, fun _ => none, 0⟩ wit_root_empty_ide [] = none ∧
    (extrair_dados_seguros ⟨id, fun _ => none, fun _ => none, 0⟩ wit_root []).isSome = true :=
  ⟨(c10_childless_mandatory_elements ⟨id, fun _ => none, fun _ => none, 0⟩
      wit_root_empty_ide []).1 _ false rfl (Or.inl rfl),
   (c10_childless_mandatory_elements ⟨id, fun _ => none, fun _ => none, 0⟩
      wit_root []).2 wit_inf false wit_ide wit_emit wit_total rfl rfl
     (by simp [wit_ide, Xml.children]) rfl (by simp [wit_emit, Xml.children]) rfl
     (by simp [wit_total, Xml.children]) rfl⟩
